import Mathlib

/-!
Shallow embedding of the tonapp accounting engine.

Source files embedded here:
* `internal/database` (SQLite store): users, investments, referral_earnings,
  deposit_requests, withdrawal_requests, withdrawals, operations tables and the
  store operations over them.
* `internal/handler` (business logic): CreateInvestment, DeleteInvestment,
  ConfirmDeposit, WithdrawFunds, ProcessReferralEarnings.

Conventions of the embedding:
* Monetary `float64` values are modelled as `Rat` (exact arithmetic); the spec
  itself notes the float representation is incidental and should be fixed-point.
* `time.Now()` is passed in as an explicit `now : Int` parameter.
* SQL tables are lists of rows; `AUTOINCREMENT` primary keys are modelled with
  explicit `next...Id` counters on the state.
* Calls to the external chain collaborator (payment scan, outbound transfer,
  address derivation) are passed in as `Except Unit _` oracle parameters.
* Each Go store method that runs inside a transaction either returns a whole
  updated state or an error with the state untouched; the multi-transaction
  `WithdrawFunds` handler instead returns the state it leaves behind together
  with its outcome, because its steps commit independently.
-/

namespace TonApp

/-- Transaction status constant `StatusPending` from the database package. -/
def StatusPending : String := "pending"

/-- Transaction status constant `StatusCompleted` from the database package. -/
def StatusCompleted : String := "completed"

/-- Transaction status constant `StatusFailed` from the database package. -/
def StatusFailed : String := "failed"

/-- Operation type constant `OperationTypeInvestmentCreated`. -/
def OperationTypeInvestmentCreated : String := "investment_created"

/-- Operation type constant `OperationTypeInvestmentClosed`. -/
def OperationTypeInvestmentClosed : String := "investment_closed"

/-- Operation type constant `OperationTypeWithdrawal`. -/
def OperationTypeWithdrawal : String := "withdrawal"

/-- Error taxonomy: structured counterparts of the error strings returned by
the Go handler and database layers. -/
inductive Err where
  | notFound
  | forbidden
  | alreadyProcessed
  | paymentNotReceived
  | externalTransportFailure
  | insufficientFunds
  | pendingOperationsExist
  | invalidType
  | invalidAmount
  | conflict
  deriving Repr, DecidableEq

/-- Row of the `users` table: id INTEGER PRIMARY KEY, pub_key TEXT UNIQUE,
balance REAL, ref_id INTEGER nullable. -/
structure User where
  id : Int
  pubKey : String
  balance : Rat
  refId : Option Int
  deriving Repr, DecidableEq

/-- Row of the `investments` table. -/
structure Investment where
  id : Int
  userId : Int
  type : String
  amount : Rat
  createdAt : Int
  deriving Repr, DecidableEq

/-- Row of the `referral_earnings` table. -/
structure ReferralEarning where
  id : Int
  referrerId : Int
  referredId : Int
  amount : Rat
  level : Nat
  createdAt : Int
  deriving Repr, DecidableEq

/-- Row of the `deposit_requests` table. -/
structure DepositRequest where
  id : Int
  userId : Int
  amount : Rat
  status : String
  memo : String
  createdAt : Int
  deriving Repr, DecidableEq

/-- Row of the `withdrawal_requests` table. -/
structure WithdrawalRequestRow where
  id : Int
  userId : Int
  amount : Rat
  status : String
  createdAt : Int
  deriving Repr, DecidableEq

/-- Row of the `withdrawals` table (separate from `withdrawal_requests`;
this is the table read by `GetWithdrawalRequestsByUser` and written by
`UpdateWithdrawalTxHash`). -/
structure WithdrawalRow where
  id : Int
  userId : Int
  amount : Rat
  status : String
  txHash : Option String
  createdAt : Int
  deriving Repr, DecidableEq

/-- Structured counterpart of the JSON `extra` payloads attached to operation
rows by the Go code. -/
inductive OpExtra where
  | invCreated (type : String) (weeklyPercent : Rat) (lockPeriod : Int)
  | invClosed (type : String) (investmentId : Int) (investmentCreated : Int) (durationDays : Int)
  | withdrawal (txHash : String)
  deriving Repr, DecidableEq

/-- Row of the `operations` table. -/
structure Operation where
  id : Int
  userId : Int
  type : String
  amount : Rat
  description : String
  createdAt : Int
  extra : Option OpExtra
  deriving Repr, DecidableEq

/-- The durable state held by the SQLite database: one list per table, plus
the autoincrement counters. -/
structure Db where
  users : List User
  investments : List Investment
  referralEarnings : List ReferralEarning
  depositRequests : List DepositRequest
  withdrawalRequests : List WithdrawalRequestRow
  withdrawals : List WithdrawalRow
  operations : List Operation
  nextInvestmentId : Int
  nextEarningId : Int
  nextDepositId : Int
  nextWithdrawalReqId : Int
  nextOperationId : Int
  deriving Repr, DecidableEq

/-- Per-type investment configuration (`model.InvestmentTypeConfig`):
weekly_percent, min_amount, lock_period_days. -/
structure InvestmentTypeConfig where
  weeklyPercent : Rat
  minAmount : Rat
  lockPeriod : Int
  deriving Repr, DecidableEq

/-- Referral percent configuration (`model.ReferralConfig`). -/
structure ReferralConfig where
  level1Percent : Rat
  level2Percent : Rat
  level3Percent : Rat
  deriving Repr, DecidableEq

namespace Database

/-- SELECT ... FROM users WHERE pub_key = ? (GetUserByPubKey). -/
def GetUserByPubKey (db : Db) (pubKey : String) : Option User :=
  db.users.find? (fun u => u.pubKey == pubKey)

/-- SELECT ... FROM users WHERE id = ? (GetUser). -/
def GetUser (db : Db) (id : Int) : Option User :=
  db.users.find? (fun u => u.id == id)

/-- UPDATE users SET balance = g(balance) WHERE id = target: common shape of
the three balance-updating SQL statements in the source. -/
def updateBalances (users : List User) (target : Int) (g : Rat → Rat) : List User :=
  users.map (fun u => if u.id = target then { u with balance := g u.balance } else u)

/-- UPDATE users SET balance = balance + ? WHERE id = ? (used by
DeleteInvestment and AddReferralEarning). -/
def creditBalance (users : List User) (target : Int) (d : Rat) : List User :=
  updateBalances users target (fun b => b + d)

/-- UPDATE users SET balance = balance - ? WHERE id = ? (used by
CreateInvestment). -/
def debitBalance (users : List User) (target : Int) (d : Rat) : List User :=
  updateBalances users target (fun b => b - d)

/-- UPDATE users SET balance = ? WHERE id = ? (UpdateUserBalance, the
unconditional set). -/
def setUserBalance (users : List User) (target : Int) (v : Rat) : List User :=
  updateBalances users target (fun _ => v)

/-- `CreateUser`: if a user with the public key already exists it is returned
unchanged; otherwise a row with id customID (or the random draw `randID`) is
inserted with balance 0 and referrer refID. An id collision makes the INSERT
fail on the primary key. -/
def CreateUser (db : Db) (pubKey : String) (refID : Option Int) (customID : Option Int)
    (randID : Int) : Except Err (User × Db) :=
  match GetUserByPubKey db pubKey with
  | some existingUser => .ok (existingUser, db)
  | none =>
    let id := match customID with
      | some i => i
      | none => randID
    if db.users.any (fun u => u.id == id) then
      .error .conflict
    else
      let u : User := { id := id, pubKey := pubKey, balance := 0, refId := refID }
      .ok (u, { db with users := db.users ++ [u] })

/-- `DeleteUser`: one transaction doing
DELETE FROM investments WHERE user_id = ? then DELETE FROM users WHERE id = ?. -/
def DeleteUser (db : Db) (id : Int) : Db :=
  { db with
    investments := db.investments.filter (fun inv => !(inv.userId == id)),
    users := db.users.filter (fun u => !(u.id == id)) }

/-- `Database.CreateInvestment`: inside one transaction, read the balance
(error if the user row is missing), fail with the insufficient-balance error
if balance < amount, otherwise debit the balance, insert the investment row
and append the investment_created operation. -/
def CreateInvestment (db : Db) (userID : Int) (investType : String) (amount : Rat)
    (config : InvestmentTypeConfig) (now : Int) : Except Err Db :=
  match GetUser db userID with
  | none => .error .notFound
  | some u =>
    if u.balance < amount then
      .error .insufficientFunds
    else
      let inv : Investment :=
        { id := db.nextInvestmentId, userId := userID, type := investType,
          amount := amount, createdAt := now }
      let op : Operation :=
        { id := db.nextOperationId, userId := userID,
          type := OperationTypeInvestmentCreated, amount := amount,
          description := "Created " ++ investType ++ " investment",
          createdAt := now,
          extra := some (.invCreated investType config.weeklyPercent config.lockPeriod) }
      .ok { db with
            users := debitBalance db.users userID amount,
            investments := db.investments ++ [inv],
            nextInvestmentId := db.nextInvestmentId + 1,
            operations := db.operations ++ [op],
            nextOperationId := db.nextOperationId + 1 }

/-- `Database.DeleteInvestment`: inside one transaction, look up the
investment by id and owner (error if absent), delete it, credit the balance
by the recorded principal and append the investment_closed operation.
The duration_days metadata uses truncating division as Go does. -/
def DeleteInvestment (db : Db) (userID : Int) (investmentID : Int) (now : Int) :
    Except Err Db :=
  match db.investments.find? (fun inv => inv.id == investmentID && inv.userId == userID) with
  | none => .error .notFound
  | some inv =>
    let op : Operation :=
      { id := db.nextOperationId, userId := userID,
        type := OperationTypeInvestmentClosed, amount := inv.amount,
        description := "Closed " ++ inv.type ++ " investment",
        createdAt := now,
        extra := some (.invClosed inv.type investmentID inv.createdAt
          ((now - inv.createdAt).tdiv 86400)) }
    .ok { db with
          investments := db.investments.filter
            (fun i => !(i.id == investmentID && i.userId == userID)),
          users := creditBalance db.users userID inv.amount,
          operations := db.operations ++ [op],
          nextOperationId := db.nextOperationId + 1 }

/-- `AddReferralEarning`: one transaction inserting a referral_earnings row
and crediting the referrer balance. -/
def AddReferralEarning (db : Db) (referrerID referredID : Int) (amount : Rat)
    (level : Nat) (now : Int) : Db :=
  let e : ReferralEarning :=
    { id := db.nextEarningId, referrerId := referrerID, referredId := referredID,
      amount := amount, level := level, createdAt := now }
  { db with
    referralEarnings := db.referralEarnings ++ [e],
    nextEarningId := db.nextEarningId + 1,
    users := creditBalance db.users referrerID amount }

/-- `UpdateUserBalance`: UPDATE users SET balance = ? WHERE id = ?. -/
def UpdateUserBalance (db : Db) (userID : Int) (newBalance : Rat) : Db :=
  { db with users := setUserBalance db.users userID newBalance }

/-- `CreateDepositRequest`: INSERT INTO deposit_requests with status pending. -/
def CreateDepositRequest (db : Db) (userID : Int) (amount : Rat) (memo : String)
    (now : Int) : DepositRequest × Db :=
  let r : DepositRequest :=
    { id := db.nextDepositId, userId := userID, amount := amount,
      status := StatusPending, memo := memo, createdAt := now }
  (r, { db with
        depositRequests := db.depositRequests ++ [r],
        nextDepositId := db.nextDepositId + 1 })

/-- `GetDepositRequest`: SELECT ... FROM deposit_requests WHERE id = ?. -/
def GetDepositRequest (db : Db) (id : Int) : Option DepositRequest :=
  db.depositRequests.find? (fun r => r.id == id)

/-- `GetDepositsOfUser`: SELECT ... FROM deposit_requests WHERE user_id = ?. -/
def GetDepositsOfUser (db : Db) (userID : Int) : List DepositRequest :=
  db.depositRequests.filter (fun r => r.userId == userID)

/-- `UpdateDepositStatus`: UPDATE deposit_requests SET status = ? WHERE id = ?. -/
def UpdateDepositStatus (db : Db) (id : Int) (status : String) : Db :=
  { db with
    depositRequests := db.depositRequests.map
      (fun r => if r.id == id then { r with status := status } else r) }

/-- `CreateWithdrawalRequest`: INSERT INTO withdrawal_requests with status
pending. -/
def CreateWithdrawalRequest (db : Db) (userID : Int) (amount : Rat) (now : Int) : Db :=
  let w : WithdrawalRequestRow :=
    { id := db.nextWithdrawalReqId, userId := userID, amount := amount,
      status := StatusPending, createdAt := now }
  { db with
    withdrawalRequests := db.withdrawalRequests ++ [w],
    nextWithdrawalReqId := db.nextWithdrawalReqId + 1 }

/-- `ConfirmWithdrawalRequest`: UPDATE withdrawal_requests SET status =
completed WHERE id = ?. Note the parameter is the row primary key. -/
def ConfirmWithdrawalRequest (db : Db) (id : Int) : Db :=
  { db with
    withdrawalRequests := db.withdrawalRequests.map
      (fun w => if w.id == id then { w with status := StatusCompleted } else w) }

/-- `GetWithdrawalRequestsByUser`: SELECT ... FROM withdrawals WHERE user_id
= ? ORDER BY created_at DESC. It reads the `withdrawals` table, not
`withdrawal_requests`. -/
def GetWithdrawalRequestsByUser (db : Db) (userID : Int) : List WithdrawalRow :=
  (db.withdrawals.filter (fun w => w.userId == userID)).mergeSort
    (fun a b => decide (b.createdAt ≤ a.createdAt))

/-- Subquery of `UpdateWithdrawalTxHash`: the id of the most recent
withdrawals row of the user (ORDER BY created_at DESC LIMIT 1). -/
def latestWithdrawalId (db : Db) (userID : Int) : Option Int :=
  match GetWithdrawalRequestsByUser db userID with
  | [] => none
  | w :: _ => some w.id

/-- `UpdateWithdrawalTxHash`: set tx_hash and status completed on the most
recent withdrawals row of the user; error when no row was affected. -/
def UpdateWithdrawalTxHash (db : Db) (userID : Int) (txHash : String) : Except Err Db :=
  match latestWithdrawalId db userID with
  | none => .error .notFound
  | some wid =>
    .ok { db with
          withdrawals := db.withdrawals.map
            (fun w => if w.userId == userID && w.id == wid then
                { w with txHash := some txHash, status := StatusCompleted }
              else w) }

/-- `AddOperation`: INSERT INTO operations. -/
def AddOperation (db : Db) (userId : Int) (type : String) (amount : Rat)
    (description : String) (extra : Option OpExtra) (now : Int) : Db :=
  let op : Operation :=
    { id := db.nextOperationId, userId := userId, type := type, amount := amount,
      description := description, createdAt := now, extra := extra }
  { db with
    operations := db.operations ++ [op],
    nextOperationId := db.nextOperationId + 1 }

/-- Result shape of `GetUserOperations` (`model.OperationHistory`). -/
structure OperationHistory where
  operations : List Operation
  total : Nat
  page : Nat
  pageSize : Nat
  deriving Repr, DecidableEq

/-- `GetUserOperations`: total = COUNT of the user rows; the page is the
ORDER BY created_at DESC query with LIMIT pageSize OFFSET (page-1)*pageSize. -/
def GetUserOperations (db : Db) (userID : Int) (page pageSize : Nat) : OperationHistory :=
  let userOps := db.operations.filter (fun op => op.userId == userID)
  let total := userOps.length
  let offset := (page - 1) * pageSize
  let sorted := userOps.mergeSort (fun a b => decide (b.createdAt ≤ a.createdAt))
  { operations := (sorted.drop offset).take pageSize,
    total := total, page := page, pageSize := pageSize }

end Database

namespace Handler

/-- Referrer-chain walk of `ProcessReferralEarnings`, with the remaining loop
iterations as fuel (the Go loop runs at most 3 times): look up the current
user (error when the row is missing), stop when ref_id is NULL, otherwise
record the referrer and continue from it. -/
def referrerChainAux (db : Db) : Nat → Int → Except Err (List Int)
  | 0, _ => .ok []
  | n + 1, current =>
    match Database.GetUser db current with
    | none => .error .notFound
    | some u =>
      match u.refId with
      | none => .ok []
      | some r =>
        match referrerChainAux db n r with
        | .error e => .error e
        | .ok rest => .ok (r :: rest)

/-- The up-to-3-level referrer chain collected by `ProcessReferralEarnings`. -/
def referrerChain (db : Db) (userID : Int) : Except Err (List Int) :=
  referrerChainAux db 3 userID

/-- Percent for a 1-based referral level, as selected by the switch in
`ProcessReferralEarnings` (default 0 for the unreachable other levels). -/
def levelPercent (rc : ReferralConfig) : Nat → Rat
  | 1 => rc.level1Percent
  | 2 => rc.level2Percent
  | 3 => rc.level3Percent
  | _ => 0

/-- The distribution loop of `ProcessReferralEarnings`: for each (level,
referrer) pair, add earnings = profitAmount * (percent / 100) via
`AddReferralEarning`. -/
def distributeEarnings (rc : ReferralConfig) (userID : Int) (profitAmount : Rat)
    (now : Int) : Db → List (Nat × Int) → Db
  | db, [] => db
  | db, (level, referrerID) :: rest =>
    distributeEarnings rc userID profitAmount now
      (Database.AddReferralEarning db referrerID userID
        (profitAmount * (levelPercent rc level / 100)) level now)
      rest

/-- `Handler.ProcessReferralEarnings`: walk the referrer chain (up to 3
hops), then credit each hop its configured share of the profit. -/
def ProcessReferralEarnings (db : Db) (rc : ReferralConfig) (userID : Int)
    (profitAmount : Rat) (now : Int) : Except Err Db :=
  match referrerChain db userID with
  | .error e => .error e
  | .ok chain =>
    .ok (distributeEarnings rc userID profitAmount now db
      (chain.enum.map (fun p => (p.1 + 1, p.2))))

/-- Lookup in the configured investment-type table (the Go map access
`h.config.InvestmentTypes[req.Type]`). -/
def lookupInvestmentType (types : List (String × InvestmentTypeConfig)) (ty : String) :
    Option InvestmentTypeConfig :=
  (types.find? (fun p => p.1 == ty)).map (fun p => p.2)

/-- `Handler.CreateInvestment`: unknown type fails with the invalid-type
error, amount ≤ 0 with the invalid-amount error, then the user is fetched by
public key and `Database.CreateInvestment` runs. No other validation is
performed. -/
def CreateInvestment (db : Db) (types : List (String × InvestmentTypeConfig))
    (pubKey ty : String) (amount : Rat) (now : Int) : Except Err Db :=
  match lookupInvestmentType types ty with
  | none => .error .invalidType
  | some investConfig =>
    if amount ≤ 0 then
      .error .invalidAmount
    else
      match Database.GetUserByPubKey db pubKey with
      | none => .error .notFound
      | some user => Database.CreateInvestment db user.id ty amount investConfig now

/-- `Handler.DeleteInvestment`: fetch the user by public key, then
`Database.DeleteInvestment`. -/
def DeleteInvestment (db : Db) (pubKey : String) (investmentID : Int) (now : Int) :
    Except Err Db :=
  match Database.GetUserByPubKey db pubKey with
  | none => .error .notFound
  | some user => Database.DeleteInvestment db user.id investmentID now

/-- `Handler.ConfirmDeposit`. `check` is the outcome of the external
collaborator steps (deposit-address fetch plus `CheckDeposit` payment scan):
transport failure, or whether a matching payment was found. On success the
request is marked completed and the balance set to the fetched balance plus
the deposit amount. -/
def ConfirmDeposit (db : Db) (pubKey : String) (depositID : Int)
    (check : Except Unit Bool) : Except Err Db :=
  match Database.GetUserByPubKey db pubKey with
  | none => .error .notFound
  | some user =>
    match Database.GetDepositRequest db depositID with
    | none => .error .notFound
    | some deposit =>
      if deposit.userId ≠ user.id then
        .error .forbidden
      else if deposit.status ≠ StatusPending then
        .error .alreadyProcessed
      else
        match check with
        | .error _ => .error .externalTransportFailure
        | .ok false => .error .paymentNotReceived
        | .ok true =>
          let db1 := Database.UpdateDepositStatus db depositID StatusCompleted
          .ok (Database.UpdateUserBalance db1 user.id (user.balance + deposit.amount))

/-- Outcome of a `WithdrawFunds` call. -/
inductive WithdrawOutcome where
  | ok (txHash : String)
  | fail (e : Err)
  deriving Repr, DecidableEq

/-- State left behind by a `WithdrawFunds` call together with its outcome.
The handler commits each store call separately, so a failing call can still
leave earlier writes behind. -/
structure WithdrawResult where
  db : Db
  outcome : WithdrawOutcome
  deriving Repr, DecidableEq

/-- Steps (1)-(2) of the withdrawal sequence: insert a pending
withdrawal_requests row, then call `ConfirmWithdrawalRequest` passing
`user.ID` where the callee expects the request primary key. -/
def withdrawBookkeeping (db : Db) (userID : Int) (amount : Rat) (now : Int) : Db :=
  Database.ConfirmWithdrawalRequest
    (Database.CreateWithdrawalRequest db userID amount now) userID

/-- Steps (1)-(5) of the withdrawal sequence, run once all validations have
passed: bookkeeping (insert pending row plus misdirected confirmation), the
on-chain transfer, tx-hash storage (failure ignored), the balance debit, the
address derivation and the operation append (failure ignored). -/
def withdrawSettle (db : Db) (user : User) (amount : Rat)
    (transfer : Except Unit String) (addrOf : Except Unit String) (now : Int) :
    WithdrawResult :=
  let db1 := withdrawBookkeeping db user.id amount now
  match transfer with
  | .error _ => ⟨db1, .fail .externalTransportFailure⟩
  | .ok txHash =>
    let db2 := match Database.UpdateWithdrawalTxHash db1 user.id txHash with
      | .ok d => d
      | .error _ => db1
    let db3 := Database.UpdateUserBalance db2 user.id (user.balance - amount)
    match addrOf with
    | .error _ => ⟨db3, .fail .externalTransportFailure⟩
    | .ok _ =>
      let db4 := Database.AddOperation db3 user.id OperationTypeWithdrawal
        amount ("Withdrawal of TON") (some (.withdrawal txHash)) now
      ⟨db4, .ok txHash⟩

/-- The Go local `MathDeposits`: sum of the deposit-request amounts of the
user, accumulated by the loop once every status is completed. -/
def mathDeposits (db : Db) (uid : Int) : Rat :=
  ((Database.GetDepositsOfUser db uid).map (fun d => d.amount)).sum

/-- The Go local `Mathwithdrawal`: sum of the withdrawals-table amounts of
the user, accumulated by the loop once every status is completed. -/
def mathWithdrawal (db : Db) (uid : Int) : Rat :=
  ((Database.GetWithdrawalRequestsByUser db uid).map (fun w => w.amount)).sum

/-- The Go local `availableBalance`: deposits minus the 20 percent fee minus
prior withdrawals. -/
def availableBalance (db : Db) (uid : Int) : Rat :=
  mathDeposits db uid - mathDeposits db uid * (0.2 : Rat) - mathWithdrawal db uid

/-- `Handler.WithdrawFunds`. `transfer` is the outcome of the on-chain
`WithdrawUserFunds` call (transaction hash or failure); `addrOf` the outcome
of `GenerateWalletAddressFromPubKey`. Mirrors the Go sequence: fetch user;
reject when any deposit of the user is not completed; reject when any
withdrawals-table row of the user is not completed; reject if the available
balance or the user balance is below the amount; then run `withdrawSettle`. -/
def WithdrawFunds (db : Db) (pubKey : String) (amount : Rat)
    (transfer : Except Unit String) (addrOf : Except Unit String) (now : Int) :
    WithdrawResult :=
  match Database.GetUserByPubKey db pubKey with
  | none => ⟨db, .fail .notFound⟩
  | some user =>
    if (Database.GetDepositsOfUser db user.id).all
        (fun d => d.status == StatusCompleted) then
      if (Database.GetWithdrawalRequestsByUser db user.id).all
          (fun w => w.status == StatusCompleted) then
        if availableBalance db user.id < amount then
          ⟨db, .fail .insufficientFunds⟩
        else if user.balance < amount then
          ⟨db, .fail .insufficientFunds⟩
        else
          withdrawSettle db user amount transfer addrOf now
      else
        ⟨db, .fail .pendingOperationsExist⟩
    else
      ⟨db, .fail .pendingOperationsExist⟩

end Handler

end TonApp

namespace TonApp

/-! ### Concrete states used by the closed theorems -/

/-- A one-user store whose single deposit request is pending with a negative
amount; every balance is nonnegative. -/
def c4Db : Db :=
  { users := [⟨1, "pk", 0, none⟩],
    investments := [], referralEarnings := [],
    depositRequests := [⟨1, 1, -5, StatusPending, "m", 0⟩],
    withdrawalRequests := [], withdrawals := [], operations := [],
    nextInvestmentId := 1, nextEarningId := 1, nextDepositId := 2,
    nextWithdrawalReqId := 1, nextOperationId := 1 }

/-- The state produced by confirming the negative-amount deposit of `c4Db`:
the request is completed and the user balance is -5. -/
def c4DbAfter : Db :=
  { users := [⟨1, "pk", -5, none⟩],
    investments := [], referralEarnings := [],
    depositRequests := [⟨1, 1, -5, StatusCompleted, "m", 0⟩],
    withdrawalRequests := [], withdrawals := [], operations := [],
    nextInvestmentId := 1, nextEarningId := 1, nextDepositId := 2,
    nextWithdrawalReqId := 1, nextOperationId := 1 }

/-- The documented configuration of the low investment type: weekly_percent
1.5, min_amount 50, lock_period_days 30. -/
def lowConfig : InvestmentTypeConfig :=
  { weeklyPercent := 1.5, minAmount := 50, lockPeriod := 30 }

/-- A one-user store with balance 10 and no other rows. -/
def c5Db : Db :=
  { users := [⟨1, "pk", 10, none⟩],
    investments := [], referralEarnings := [],
    depositRequests := [], withdrawalRequests := [], withdrawals := [],
    operations := [],
    nextInvestmentId := 1, nextEarningId := 1, nextDepositId := 1,
    nextWithdrawalReqId := 1, nextOperationId := 1 }

/-- The state after opening a low investment of 10 from `c5Db`: the row is
inserted and the balance debited to 0. -/
def c5DbAfter : Db :=
  { users := [⟨1, "pk", 0, none⟩],
    investments := [⟨1, 1, "low", 10, 0⟩], referralEarnings := [],
    depositRequests := [], withdrawalRequests := [], withdrawals := [],
    operations := [⟨1, 1, OperationTypeInvestmentCreated, 10,
      "Created low investment", 0, some (.invCreated ("low") 1.5 30)⟩],
    nextInvestmentId := 2, nextEarningId := 1, nextDepositId := 1,
    nextWithdrawalReqId := 1, nextOperationId := 2 }

/-- A store for the withdrawal scenario: user id 42, balance 100, one
completed deposit of 1000, empty withdrawal tables. -/
def c6Db : Db :=
  { users := [⟨42, "pk", 100, none⟩],
    investments := [], referralEarnings := [],
    depositRequests := [⟨1, 42, 1000, StatusCompleted, "m", 0⟩],
    withdrawalRequests := [], withdrawals := [], operations := [],
    nextInvestmentId := 1, nextEarningId := 1, nextDepositId := 2,
    nextWithdrawalReqId := 1, nextOperationId := 1 }

/-! ### C9 -/

/-- C9: CreateUser is idempotent on the public key: when a user row with the
given pub_key already exists, CreateUser returns that existing user and the
state unchanged, ignoring the supplied refID and customID. -/
theorem c9_createUser_idempotent_on_pubkey (db : Db) (pubKey : String)
    (refID customID : Option Int) (randID : Int) (u : User)
    (h : Database.GetUserByPubKey db pubKey = some u) :
    Database.CreateUser db pubKey refID customID randID = .ok (u, db) := by
  unfold Database.CreateUser
  rw [h]

/-- C9 witness: on a concrete store holding the user already, CreateUser with
a different custom id and referrer returns the stored user and leaves the
state unchanged. -/
theorem c9_createUser_idempotent_witness :
    Database.CreateUser c4Db ("pk") (some 7) (some 99) 5
      = .ok (⟨1, "pk", 0, none⟩, c4Db) :=
  c9_createUser_idempotent_on_pubkey c4Db ("pk") (some 7) (some 99) 5 _ (by rfl)

/-! ### C10 -/

/-- C10: frame condition of DeleteUser: it removes exactly the user row with
the given id and that user investment rows; deposit requests, withdrawal
requests, withdrawal records, operations and referral-earning rows are left
unchanged, and every row of other users survives. -/
theorem c10_deleteUser_frame (db : Db) (id : Int) :
    (Database.DeleteUser db id).users = db.users.filter (fun u => !(u.id == id))
    ∧ (Database.DeleteUser db id).investments
        = db.investments.filter (fun i => !(i.userId == id))
    ∧ (Database.DeleteUser db id).depositRequests = db.depositRequests
    ∧ (Database.DeleteUser db id).withdrawalRequests = db.withdrawalRequests
    ∧ (Database.DeleteUser db id).withdrawals = db.withdrawals
    ∧ (Database.DeleteUser db id).operations = db.operations
    ∧ (Database.DeleteUser db id).referralEarnings = db.referralEarnings
    ∧ (∀ u ∈ (Database.DeleteUser db id).users, u.id ≠ id)
    ∧ (∀ i ∈ (Database.DeleteUser db id).investments, i.userId ≠ id)
    ∧ (∀ u ∈ db.users, u.id ≠ id → u ∈ (Database.DeleteUser db id).users)
    ∧ (∀ i ∈ db.investments, i.userId ≠ id → i ∈ (Database.DeleteUser db id).investments) := by
  refine ⟨rfl, rfl, rfl, rfl, rfl, rfl, rfl, ?_, ?_, ?_, ?_⟩
  · intro u hu
    simp only [Database.DeleteUser, List.mem_filter, Bool.not_eq_true', beq_eq_false_iff_ne,
      ne_eq] at hu
    exact hu.2
  · intro i hi
    simp only [Database.DeleteUser, List.mem_filter, Bool.not_eq_true', beq_eq_false_iff_ne,
      ne_eq] at hi
    exact hi.2
  · intro u hu hne
    simp only [Database.DeleteUser, List.mem_filter, Bool.not_eq_true', beq_eq_false_iff_ne,
      ne_eq]
    exact ⟨hu, hne⟩
  · intro i hi hne
    simp only [Database.DeleteUser, List.mem_filter, Bool.not_eq_true', beq_eq_false_iff_ne,
      ne_eq]
    exact ⟨hi, hne⟩

/-- C10 witness: deleting user 42 from the withdrawal-scenario store keeps
its deposit table intact, and a row of another user survives in a store that
holds one. -/
theorem c10_deleteUser_frame_witness :
    (Database.DeleteUser c6Db 7).depositRequests = c6Db.depositRequests
    ∧ (⟨42, "pk", 100, none⟩ : User) ∈ (Database.DeleteUser c6Db 7).users := by
  refine ⟨(c10_deleteUser_frame c6Db 7).2.2.1, ?_⟩
  exact (c10_deleteUser_frame c6Db 7).2.2.2.2.2.2.2.2.2.1
    ⟨42, "pk", 100, none⟩ (by norm_num [c6Db]) (by norm_num)

/-! ### C5 -/

/-- C5 (code-bug evidence): the configured minimum amount is never checked.
With the documented low type (min_amount 50), a request of amount 10 from a
user with balance 10 succeeds: the investment row is inserted and the
balance debited, where the claim requires a below-minimum failure with no
row inserted. -/
theorem c5_below_minimum_not_enforced :
    (10 : Rat) < lowConfig.minAmount
    ∧ Handler.CreateInvestment c5Db [("low", lowConfig)] ("pk") ("low") 10 0
        = .ok c5DbAfter
    ∧ c5DbAfter.investments = [⟨1, 1, "low", 10, 0⟩]
    ∧ c5DbAfter.users = [⟨1, "pk", 0, none⟩] := by
  refine ⟨by norm_num [lowConfig], ?_, rfl, rfl⟩
  norm_num [Handler.CreateInvestment, Handler.lookupInvestmentType,
    Database.GetUserByPubKey, Database.CreateInvestment, Database.GetUser,
    Database.debitBalance, Database.updateBalances, c5Db, c5DbAfter, lowConfig,
    List.find?, OperationTypeInvestmentCreated]
  rfl

/-! ### C6 -/

/-- C6 (code-bug evidence): the confirmation step passes the user id where
`ConfirmWithdrawalRequest` expects the withdrawal-request primary key, so the
record inserted by step (1) is still pending when the external transfer of
step (3) is invoked, and stays pending whether the transfer succeeds or
fails — the claim requires it to be marked completed by step (2). -/
theorem c6_withdrawal_not_marked_completed :
    (Handler.withdrawBookkeeping c6Db 42 50 7).withdrawalRequests
        = [⟨1, 42, 50, StatusPending, 7⟩]
    ∧ (Handler.WithdrawFunds c6Db ("pk") 50 (.ok ("txh")) (.ok ("addr")) 7).outcome
        = .ok ("txh")
    ∧ (Handler.WithdrawFunds c6Db ("pk") 50 (.ok ("txh")) (.ok ("addr")) 7).db.withdrawalRequests
        = [⟨1, 42, 50, StatusPending, 7⟩]
    ∧ (Handler.WithdrawFunds c6Db ("pk") 50 (.error ()) (.ok ("addr")) 7).db.withdrawalRequests
        = [⟨1, 42, 50, StatusPending, 7⟩] := by
  refine ⟨?_, ?_, ?_, ?_⟩ <;>
    norm_num [Handler.WithdrawFunds, Handler.withdrawSettle, Handler.withdrawBookkeeping,
      Handler.mathDeposits, Handler.mathWithdrawal, Handler.availableBalance,
      Database.GetUserByPubKey, Database.GetDepositsOfUser,
      Database.GetWithdrawalRequestsByUser, Database.CreateWithdrawalRequest,
      Database.ConfirmWithdrawalRequest, Database.UpdateWithdrawalTxHash,
      Database.latestWithdrawalId, Database.UpdateUserBalance,
      Database.setUserBalance, Database.updateBalances, Database.AddOperation,
      c6Db, List.find?, List.filter, StatusPending, StatusCompleted]

/-! ### C4, counterexample part -/

/-- C4 counterexample: from a state in which every balance is nonnegative
(but a pending deposit request carries a negative amount), confirming that
deposit succeeds and leaves a negative balance, refuting the claim as
stated. -/
theorem c4_negative_balance_reachable :
    (∀ u ∈ c4Db.users, 0 ≤ u.balance)
    ∧ Handler.ConfirmDeposit c4Db ("pk") 1 (.ok true) = .ok c4DbAfter
    ∧ ¬ (∀ u ∈ c4DbAfter.users, 0 ≤ u.balance) := by
  refine ⟨by norm_num [c4Db], ?_, by norm_num [c4DbAfter]⟩
  norm_num [Handler.ConfirmDeposit, Database.GetUserByPubKey,
    Database.GetDepositRequest, Database.UpdateDepositStatus,
    Database.UpdateUserBalance, Database.setUserBalance, Database.updateBalances,
    c4Db, c4DbAfter, List.find?, StatusPending, StatusCompleted]

/-! ### C1 -/

/-- C1: when every recorded deposit and every withdrawals-table row of the
user is completed, a withdrawal succeeds only if amount is at most
0.8 * (sum of deposit amounts) - (sum of withdrawal amounts) and at most the
current balance; exceeding either bound fails with the insufficient-funds
error. -/
theorem c1_withdrawal_ceiling (db : Db) (pubKey : String) (amount : Rat)
    (transfer addrOf : Except Unit String) (now : Int) (user : User)
    (hu : Database.GetUserByPubKey db pubKey = some user)
    (hdep : ∀ d ∈ Database.GetDepositsOfUser db user.id, d.status = StatusCompleted)
    (hwd : ∀ w ∈ Database.GetWithdrawalRequestsByUser db user.id, w.status = StatusCompleted) :
    (∀ tx, (Handler.WithdrawFunds db pubKey amount transfer addrOf now).outcome = .ok tx →
        amount ≤ (8/10 : Rat) * Handler.mathDeposits db user.id
            - Handler.mathWithdrawal db user.id
          ∧ amount ≤ user.balance)
    ∧ ((8/10 : Rat) * Handler.mathDeposits db user.id
            - Handler.mathWithdrawal db user.id < amount
          ∨ user.balance < amount →
        (Handler.WithdrawFunds db pubKey amount transfer addrOf now).outcome
          = .fail .insufficientFunds) := by
  have hdall : (Database.GetDepositsOfUser db user.id).all
      (fun d => d.status == StatusCompleted) = true := by
    rw [List.all_eq_true]; intro d hd; exact beq_iff_eq.mpr (hdep d hd)
  have hwall : (Database.GetWithdrawalRequestsByUser db user.id).all
      (fun w => w.status == StatusCompleted) = true := by
    rw [List.all_eq_true]; intro w hw; exact beq_iff_eq.mpr (hwd w hw)
  have havail : Handler.availableBalance db user.id
      = (8/10 : Rat) * Handler.mathDeposits db user.id
        - Handler.mathWithdrawal db user.id := by
    unfold Handler.availableBalance
    ring
  have key : Handler.WithdrawFunds db pubKey amount transfer addrOf now
      = if (8/10 : Rat) * Handler.mathDeposits db user.id
            - Handler.mathWithdrawal db user.id < amount then
          ⟨db, .fail .insufficientFunds⟩
        else if user.balance < amount then
          ⟨db, .fail .insufficientFunds⟩
        else Handler.withdrawSettle db user amount transfer addrOf now := by
    unfold Handler.WithdrawFunds
    rw [hu]
    simp only [hdall, hwall, if_true]
    rw [havail]
  constructor
  · intro tx htx
    rw [key] at htx
    by_cases h1 : (8/10 : Rat) * Handler.mathDeposits db user.id
        - Handler.mathWithdrawal db user.id < amount
    · rw [if_pos h1] at htx; exact absurd htx (by simp)
    · by_cases h2 : user.balance < amount
      · rw [if_neg h1, if_pos h2] at htx; exact absurd htx (by simp)
      · exact ⟨le_of_not_lt h1, le_of_not_lt h2⟩
  · intro hor
    rw [key]
    by_cases h1 : (8/10 : Rat) * Handler.mathDeposits db user.id
        - Handler.mathWithdrawal db user.id < amount
    · rw [if_pos h1]
    · have h2 : user.balance < amount := by
        rcases hor with h | h
        · exact absurd h h1
        · exact h
      rw [if_neg h1, if_pos h2]

/-- A store matching the claim example: completed deposits totaling 1000 and
one completed withdrawal of 300. -/
def c1Db : Db :=
  { users := [⟨1, "pk", 1000, none⟩],
    investments := [], referralEarnings := [],
    depositRequests := [⟨1, 1, 1000, StatusCompleted, "m", 0⟩],
    withdrawalRequests := [],
    withdrawals := [⟨1, 1, 300, StatusCompleted, none, 0⟩],
    operations := [],
    nextInvestmentId := 1, nextEarningId := 1, nextDepositId := 2,
    nextWithdrawalReqId := 1, nextOperationId := 1 }

/-- C1 witness: on the claim example the available ceiling is 500 and a
request for 501 fails with the insufficient-funds error. -/
theorem c1_witness :
    (8/10 : Rat) * Handler.mathDeposits c1Db 1 - Handler.mathWithdrawal c1Db 1 = 500
    ∧ (Handler.WithdrawFunds c1Db ("pk") 501 (.ok ("t")) (.ok ("a")) 0).outcome
        = .fail .insufficientFunds := by
  have h500 : (8/10 : Rat) * Handler.mathDeposits c1Db 1
      - Handler.mathWithdrawal c1Db 1 = 500 := by
    norm_num [Handler.mathDeposits, Handler.mathWithdrawal, Database.GetDepositsOfUser,
      Database.GetWithdrawalRequestsByUser, c1Db, List.filter]
  refine ⟨h500, ?_⟩
  have h := c1_withdrawal_ceiling c1Db ("pk") 501 (.ok ("t")) (.ok ("a")) 0
    ⟨1, "pk", 1000, none⟩ (by rfl)
    (by norm_num [Database.GetDepositsOfUser, c1Db, List.filter, StatusCompleted])
    (by norm_num [Database.GetWithdrawalRequestsByUser, c1Db, List.filter, StatusCompleted])
  exact h.2 (Or.inl (by rw [h500]; norm_num))

/-! ### C3 -/

/-- Store for the three-deep referral chain example 1 <- 2 <- 3 <- 4 (user 4
is referred by 3, 3 by 2, 2 by 1). -/
def c3Db : Db :=
  { users := [⟨1, "a", 10, none⟩, ⟨2, "b", 20, some 1⟩,
              ⟨3, "c", 30, some 2⟩, ⟨4, "d", 40, some 3⟩],
    investments := [], referralEarnings := [],
    depositRequests := [], withdrawalRequests := [], withdrawals := [],
    operations := [],
    nextInvestmentId := 1, nextEarningId := 1, nextDepositId := 1,
    nextWithdrawalReqId := 1, nextOperationId := 1 }

/-- State after distributing a profit of 200 at user 4 in `c3Db` with
percents 7, 3, 1: balances rise by 14, 6, 2 and one earning row per level. -/
def c3DbAfter : Db :=
  { users := [⟨1, "a", 12, none⟩, ⟨2, "b", 26, some 1⟩,
              ⟨3, "c", 44, some 2⟩, ⟨4, "d", 40, some 3⟩],
    investments := [],
    referralEarnings := [⟨1, 3, 4, 14, 1, 5⟩, ⟨2, 2, 4, 6, 2, 5⟩, ⟨3, 1, 4, 2, 3, 5⟩],
    depositRequests := [], withdrawalRequests := [], withdrawals := [],
    operations := [],
    nextInvestmentId := 1, nextEarningId := 4, nextDepositId := 1,
    nextWithdrawalReqId := 1, nextOperationId := 1 }

/-- Store for the one-deep referral chain example 1 <- 2. -/
def c3ShallowDb : Db :=
  { users := [⟨1, "a", 10, none⟩, ⟨2, "b", 20, some 1⟩],
    investments := [], referralEarnings := [],
    depositRequests := [], withdrawalRequests := [], withdrawals := [],
    operations := [],
    nextInvestmentId := 1, nextEarningId := 1, nextDepositId := 1,
    nextWithdrawalReqId := 1, nextOperationId := 1 }

/-- State after distributing a profit of 200 at user 2 in `c3ShallowDb`:
only the level-1 earning of 14 for user 1 exists. -/
def c3ShallowDbAfter : Db :=
  { users := [⟨1, "a", 24, none⟩, ⟨2, "b", 20, some 1⟩],
    investments := [],
    referralEarnings := [⟨1, 1, 2, 14, 1, 5⟩],
    depositRequests := [], withdrawalRequests := [], withdrawals := [],
    operations := [],
    nextInvestmentId := 1, nextEarningId := 2, nextDepositId := 1,
    nextWithdrawalReqId := 1, nextOperationId := 1 }

/-- C3: for a three-deep referrer chain A <- B <- C <- D, distributing a
profit P at D credits C with P * level1/100, B with P * level2/100 and A
with P * level3/100, and appends exactly one earning row per (referrer,
level) pair; for a one-deep chain A <- B only the level-1 earning for A is
created and no level-2 or level-3 row exists. -/
theorem c3_referral_cascade :
    (∀ (A B C D : User) (P : Rat) (rc : ReferralConfig) (db : Db) (now : Int),
      db.users = [A, B, C, D] →
      D.refId = some C.id → C.refId = some B.id → B.refId = some A.id →
      A.id ≠ B.id → A.id ≠ C.id → A.id ≠ D.id →
      B.id ≠ C.id → B.id ≠ D.id → C.id ≠ D.id →
      Handler.ProcessReferralEarnings db rc D.id P now = .ok
        { db with
          users := [{ A with balance := A.balance + P * (rc.level3Percent / 100) },
                    { B with balance := B.balance + P * (rc.level2Percent / 100) },
                    { C with balance := C.balance + P * (rc.level1Percent / 100) },
                    D],
          referralEarnings := db.referralEarnings ++
            [⟨db.nextEarningId, C.id, D.id, P * (rc.level1Percent / 100), 1, now⟩,
             ⟨db.nextEarningId + 1, B.id, D.id, P * (rc.level2Percent / 100), 2, now⟩,
             ⟨db.nextEarningId + 2, A.id, D.id, P * (rc.level3Percent / 100), 3, now⟩],
          nextEarningId := db.nextEarningId + 3 })
    ∧ (∀ (A B : User) (P : Rat) (rc : ReferralConfig) (db : Db) (now : Int),
      db.users = [A, B] →
      B.refId = some A.id → A.refId = none → A.id ≠ B.id →
      Handler.ProcessReferralEarnings db rc B.id P now = .ok
        { db with
          users := [{ A with balance := A.balance + P * (rc.level1Percent / 100) }, B],
          referralEarnings := db.referralEarnings ++
            [⟨db.nextEarningId, A.id, B.id, P * (rc.level1Percent / 100), 1, now⟩],
          nextEarningId := db.nextEarningId + 1 }) := by
  constructor
  · intro A B C D P rc db now hu hD hC hB hAB hAC hAD hBC hBD hCD
    have eab : (A.id == B.id) = false := beq_eq_false_iff_ne.mpr hAB
    have eac : (A.id == C.id) = false := beq_eq_false_iff_ne.mpr hAC
    have ead : (A.id == D.id) = false := beq_eq_false_iff_ne.mpr hAD
    have ebc : (B.id == C.id) = false := beq_eq_false_iff_ne.mpr hBC
    have ebd : (B.id == D.id) = false := beq_eq_false_iff_ne.mpr hBD
    have ecd : (C.id == D.id) = false := beq_eq_false_iff_ne.mpr hCD
    have eba : (B.id == A.id) = false := beq_eq_false_iff_ne.mpr (Ne.symm hAB)
    have eca : (C.id == A.id) = false := beq_eq_false_iff_ne.mpr (Ne.symm hAC)
    have eda : (D.id == A.id) = false := beq_eq_false_iff_ne.mpr (Ne.symm hAD)
    have ecb : (C.id == B.id) = false := beq_eq_false_iff_ne.mpr (Ne.symm hBC)
    have edb : (D.id == B.id) = false := beq_eq_false_iff_ne.mpr (Ne.symm hBD)
    have edc : (D.id == C.id) = false := beq_eq_false_iff_ne.mpr (Ne.symm hCD)
    simp only [Handler.ProcessReferralEarnings, Handler.referrerChain,
      Handler.referrerChainAux, Database.GetUser, hu, List.find?, hD, hC, hB,
      eab, eac, ead, ebc, ebd, ecd, eba, eca, eda, ecb, edb, edc,
      beq_self_eq_true, hAB, hAC, hAD, hBC, hBD, hCD,
      Ne.symm hAB, Ne.symm hAC, Ne.symm hAD, Ne.symm hBC, Ne.symm hBD, Ne.symm hCD,
      List.enum, List.enumFrom, List.map, Handler.distributeEarnings,
      Handler.levelPercent, Database.AddReferralEarning, Database.creditBalance,
      Database.updateBalances, List.append_assoc, List.cons_append, List.nil_append,
      ite_true, ite_false, if_false, if_true]
    ring_nf
  · intro A B P rc db now hu hB hA hAB
    have eab : (A.id == B.id) = false := beq_eq_false_iff_ne.mpr hAB
    have eba : (B.id == A.id) = false := beq_eq_false_iff_ne.mpr (Ne.symm hAB)
    simp only [Handler.ProcessReferralEarnings, Handler.referrerChain,
      Handler.referrerChainAux, Database.GetUser, hu, List.find?, hB, hA,
      eab, eba, beq_self_eq_true, hAB, Ne.symm hAB,
      List.enum, List.enumFrom, List.map, Handler.distributeEarnings,
      Handler.levelPercent, Database.AddReferralEarning, Database.creditBalance,
      Database.updateBalances, List.append_assoc, List.cons_append, List.nil_append,
      ite_true, ite_false, if_false, if_true]

/-- C3 witness: on the concrete chains with percents 7, 3, 1 and profit 200,
the three-deep distribution yields earnings 14, 6, 2 at levels 1, 2, 3, and
the one-deep distribution yields only the level-1 earning of 14. -/
theorem c3_referral_cascade_witness :
    Handler.ProcessReferralEarnings c3Db ⟨7, 3, 1⟩ 4 200 5 = .ok c3DbAfter
    ∧ Handler.ProcessReferralEarnings c3ShallowDb ⟨7, 3, 1⟩ 2 200 5
        = .ok c3ShallowDbAfter := by
  constructor
  · have h := (c3_referral_cascade).1 ⟨1, "a", 10, none⟩ ⟨2, "b", 20, some 1⟩
      ⟨3, "c", 30, some 2⟩ ⟨4, "d", 40, some 3⟩ 200 ⟨7, 3, 1⟩ c3Db 5
      rfl rfl rfl rfl (by decide) (by decide) (by decide)
      (by decide) (by decide) (by decide)
    norm_num [c3Db, c3DbAfter] at h ⊢
    exact h
  · have h := (c3_referral_cascade).2 ⟨1, "a", 10, none⟩ ⟨2, "b", 20, some 1⟩
      200 ⟨7, 3, 1⟩ c3ShallowDb 5 rfl rfl rfl (by decide)
    norm_num [c3ShallowDb, c3ShallowDbAfter] at h ⊢
    exact h

/-! ### C2 -/

/-- One-user store with balance b and a single deposit request of amount a
in the given status. -/
def c2Db (b a : Rat) (status : String) : Db :=
  { users := [⟨1, "pk", b, none⟩],
    investments := [], referralEarnings := [],
    depositRequests := [⟨1, 1, a, status, "m", 0⟩],
    withdrawalRequests := [], withdrawals := [], operations := [],
    nextInvestmentId := 1, nextEarningId := 1, nextDepositId := 2,
    nextWithdrawalReqId := 1, nextOperationId := 1 }

/-- Driver iterating ConfirmDeposit calls: each call commits its state on
success and leaves the state untouched on error (the handler returns before
any write on every error path). -/
def confirmRuns (pubKey : String) (depositID : Int) :
    Db → List (Except Unit Bool) → Db
  | db, [] => db
  | db, c :: cs =>
    match Handler.ConfirmDeposit db pubKey depositID c with
    | .ok db1 => confirmRuns pubKey depositID db1 cs
    | .error _ => confirmRuns pubKey depositID db cs

/-- A confirm call on the pending request: on a matched payment the request
becomes completed and the balance is credited once; otherwise the call fails
before any write. -/
theorem confirmDeposit_c2_pending (b a : Rat) (c : Except Unit Bool) :
    Handler.ConfirmDeposit (c2Db b a StatusPending) ("pk") 1 c
      = match c with
        | .ok true => .ok (c2Db (b + a) a StatusCompleted)
        | .ok false => .error .paymentNotReceived
        | .error _ => .error .externalTransportFailure := by
  cases c with
  | error e =>
    simp [Handler.ConfirmDeposit, Database.GetUserByPubKey,
      Database.GetDepositRequest, c2Db, List.find?, StatusPending]
  | ok received =>
    cases received <;>
      simp [Handler.ConfirmDeposit, Database.GetUserByPubKey,
        Database.GetDepositRequest, Database.UpdateDepositStatus,
        Database.UpdateUserBalance, Database.setUserBalance,
        Database.updateBalances, c2Db, List.find?, StatusPending, StatusCompleted]

/-- A confirm call on the already-completed request is rejected with the
already-processed error. -/
theorem confirmDeposit_c2_completed (b a : Rat) (c : Except Unit Bool) :
    Handler.ConfirmDeposit (c2Db b a StatusCompleted) ("pk") 1 c
      = .error .alreadyProcessed := by
  simp [Handler.ConfirmDeposit, Database.GetUserByPubKey,
    Database.GetDepositRequest, c2Db, List.find?, StatusPending, StatusCompleted]

/-- A completed request never leaves that status and the balance is never
touched again, over any sequence of confirm calls. -/
theorem confirmRuns_c2_completed (b a : Rat) (checks : List (Except Unit Bool)) :
    confirmRuns ("pk") 1 (c2Db b a StatusCompleted) checks
      = c2Db b a StatusCompleted := by
  induction checks with
  | nil => rfl
  | cons c cs ih => simp [confirmRuns, confirmDeposit_c2_completed, ih]

/-- From the pending state, any sequence of confirm calls ends either still
pending with the balance untouched, or completed with the deposit amount
credited exactly once. -/
theorem confirmRuns_c2_pending (b a : Rat) (checks : List (Except Unit Bool)) :
    confirmRuns ("pk") 1 (c2Db b a StatusPending) checks = c2Db b a StatusPending
    ∨ confirmRuns ("pk") 1 (c2Db b a StatusPending) checks
        = c2Db (b + a) a StatusCompleted := by
  induction checks with
  | nil => left; rfl
  | cons c cs ih =>
    match c with
    | .ok true =>
      right
      simp [confirmRuns, confirmDeposit_c2_pending, confirmRuns_c2_completed]
    | .ok false => simpa [confirmRuns, confirmDeposit_c2_pending] using ih
    | .error e => simpa [confirmRuns, confirmDeposit_c2_pending] using ih

/-- C2: a second confirm on a completed DepositRequest is rejected with the
already-processed error and leaves the balance unchanged; across any
sequence of confirm calls on one request the balance is credited with the
deposit amount exactly once (when completion is reached, and never more),
and a completed request never leaves that status. -/
theorem c2_deposit_confirm_idempotent (b a : Rat) (c : Except Unit Bool)
    (checks : List (Except Unit Bool)) :
    Handler.ConfirmDeposit (c2Db b a StatusCompleted) ("pk") 1 c
        = .error .alreadyProcessed
    ∧ confirmRuns ("pk") 1 (c2Db b a StatusCompleted) checks
        = c2Db b a StatusCompleted
    ∧ (confirmRuns ("pk") 1 (c2Db b a StatusPending) checks = c2Db b a StatusPending
       ∨ confirmRuns ("pk") 1 (c2Db b a StatusPending) checks
           = c2Db (b + a) a StatusCompleted) :=
  ⟨confirmDeposit_c2_completed b a c, confirmRuns_c2_completed b a checks,
   confirmRuns_c2_pending b a checks⟩

/-! ### C4, amended invariant -/

/-- The state left behind by a transactional store call: on error nothing
was committed. -/
def afterExcept (db : Db) : Except Err Db → Db
  | .ok db1 => db1
  | .error _ => db

/-- Well-formed store: distinct user ids (the primary key), nonnegative
balances and nonnegative recorded deposit and investment amounts. -/
def WfState (db : Db) : Prop :=
  (db.users.map (fun u => u.id)).Nodup
  ∧ (∀ u ∈ db.users, 0 ≤ u.balance)
  ∧ (∀ d ∈ db.depositRequests, 0 ≤ d.amount)
  ∧ (∀ inv ∈ db.investments, 0 ≤ inv.amount)

/-- Every row of an UPDATE result comes from a source row. -/
theorem mem_updateBalances {v : User} {users : List User} {t : Int} {g : Rat → Rat}
    (hv : v ∈ Database.updateBalances users t g) :
    ∃ u ∈ users, v = if u.id = t then { u with balance := g u.balance } else u := by
  simp only [Database.updateBalances, List.mem_map] at hv
  obtain ⟨u, hu, rfl⟩ := hv
  exact ⟨u, hu, rfl⟩

/-- Crediting a nonnegative delta preserves nonnegative balances. -/
theorem nonneg_creditBalance {users : List User} {t : Int} {d : Rat}
    (h : ∀ u ∈ users, 0 ≤ u.balance) (hd : 0 ≤ d) :
    ∀ v ∈ Database.creditBalance users t d, 0 ≤ v.balance := by
  intro v hv
  obtain ⟨u, hu, rfl⟩ := mem_updateBalances hv
  have hb := h u hu
  by_cases hid : u.id = t
  · simp only [Database.creditBalance] at *
    simp [hid]
    linarith
  · simp [hid]
    exact hb

/-- Setting a balance to a nonnegative value preserves nonnegative balances. -/
theorem nonneg_setUserBalance {users : List User} {t : Int} {v0 : Rat}
    (h : ∀ u ∈ users, 0 ≤ u.balance) (hv : 0 ≤ v0) :
    ∀ v ∈ Database.setUserBalance users t v0, 0 ≤ v.balance := by
  intro v hv'
  obtain ⟨u, hu, rfl⟩ := mem_updateBalances hv'
  have hb := h u hu
  by_cases hid : u.id = t
  · simp [hid]
    exact hv
  · simp [hid]
    exact hb

/-- Debiting at most the balance of the (unique) targeted row preserves
nonnegative balances. -/
theorem nonneg_debitBalance {users : List User} {t : Int} {a : Rat} {u : User}
    (hnd : (users.map (fun x => x.id)).Nodup)
    (hfind : users.find? (fun x => x.id == t) = some u)
    (ha : a ≤ u.balance)
    (h : ∀ x ∈ users, 0 ≤ x.balance) :
    ∀ v ∈ Database.debitBalance users t a, 0 ≤ v.balance := by
  intro v hv
  obtain ⟨x, hx, rfl⟩ := mem_updateBalances hv
  by_cases hid : x.id = t
  · have humem : u ∈ users := List.mem_of_find?_eq_some hfind
    have hut : u.id = t := by
      have := List.find?_some hfind
      simpa using this
    have hxu : x = u := List.inj_on_of_nodup_map hnd hx humem (by rw [hid, hut])
    subst hxu
    simp [hid]
    linarith
  · simp [hid]
    exact h x hx

/-- The store-level investment creation preserves nonnegative balances: the
debit only happens after the balance check. -/
theorem nonneg_dbCreateInvestment {db : Db} {userID : Int} {ty : String}
    {amount : Rat} {cfg : InvestmentTypeConfig} {now : Int}
    (hnd : (db.users.map (fun x => x.id)).Nodup)
    (hb : ∀ u ∈ db.users, 0 ≤ u.balance) :
    ∀ v ∈ (afterExcept db (Database.CreateInvestment db userID ty amount cfg now)).users,
      0 ≤ v.balance := by
  unfold Database.CreateInvestment
  split
  · exact hb
  case _ u hfind =>
    split
    · exact hb
    case _ hlt =>
      intro v hv
      exact nonneg_debitBalance hnd hfind (le_of_not_lt hlt) hb v hv

/-- The handler-level investment creation preserves nonnegative balances. -/
theorem nonneg_handlerCreateInvestment {db : Db}
    {types : List (String × InvestmentTypeConfig)} {pubKey ty : String}
    {amount : Rat} {now : Int}
    (hnd : (db.users.map (fun x => x.id)).Nodup)
    (hb : ∀ u ∈ db.users, 0 ≤ u.balance) :
    ∀ v ∈ (afterExcept db (Handler.CreateInvestment db types pubKey ty amount now)).users,
      0 ≤ v.balance := by
  unfold Handler.CreateInvestment
  split
  · exact hb
  split
  · exact hb
  split
  · exact hb
  · exact nonneg_dbCreateInvestment hnd hb

/-- The store-level investment close preserves nonnegative balances when
recorded principals are nonnegative. -/
theorem nonneg_dbDeleteInvestment {db : Db} {userID investmentID : Int} {now : Int}
    (hb : ∀ u ∈ db.users, 0 ≤ u.balance)
    (hinv : ∀ i ∈ db.investments, 0 ≤ i.amount) :
    ∀ v ∈ (afterExcept db (Database.DeleteInvestment db userID investmentID now)).users,
      0 ≤ v.balance := by
  unfold Database.DeleteInvestment
  split
  · exact hb
  case _ inv hfind =>
    intro v hv
    have hmem : inv ∈ db.investments := List.mem_of_find?_eq_some hfind
    exact nonneg_creditBalance hb (hinv inv hmem) v hv

/-- The handler-level investment close preserves nonnegative balances. -/
theorem nonneg_handlerDeleteInvestment {db : Db} {pubKey : String}
    {investmentID : Int} {now : Int}
    (hb : ∀ u ∈ db.users, 0 ≤ u.balance)
    (hinv : ∀ i ∈ db.investments, 0 ≤ i.amount) :
    ∀ v ∈ (afterExcept db (Handler.DeleteInvestment db pubKey investmentID now)).users,
      0 ≤ v.balance := by
  unfold Handler.DeleteInvestment
  split
  · exact hb
  · exact nonneg_dbDeleteInvestment hb hinv

/-- Deposit confirmation preserves nonnegative balances when recorded
deposit amounts are nonnegative. -/
theorem nonneg_confirmDeposit {db : Db} {pubKey : String} {depositID : Int}
    {check : Except Unit Bool}
    (hb : ∀ u ∈ db.users, 0 ≤ u.balance)
    (hdep : ∀ d ∈ db.depositRequests, 0 ≤ d.amount) :
    ∀ v ∈ (afterExcept db (Handler.ConfirmDeposit db pubKey depositID check)).users,
      0 ≤ v.balance := by
  unfold Handler.ConfirmDeposit
  split
  · exact hb
  case _ user huser =>
  split
  · exact hb
  case _ deposit hdepfind =>
  split
  · exact hb
  split
  · exact hb
  split
  · exact hb
  · exact hb
  · intro v hv
    have humem : user ∈ db.users := List.mem_of_find?_eq_some huser
    have hdmem : deposit ∈ db.depositRequests := List.mem_of_find?_eq_some hdepfind
    have hnn : 0 ≤ user.balance + deposit.amount :=
      add_nonneg (hb user humem) (hdep deposit hdmem)
    exact nonneg_setUserBalance hb hnn v hv

/-- A successful tx-hash update leaves the users table untouched. -/
theorem users_updateWithdrawalTxHash {db : Db} {uid : Int} {tx : String} {db' : Db}
    (h : Database.UpdateWithdrawalTxHash db uid tx = .ok db') : db'.users = db.users := by
  unfold Database.UpdateWithdrawalTxHash at h
  split at h
  · exact absurd h (by simp)
  · cases h
    rfl

/-- The withdrawal bookkeeping steps leave the users table untouched. -/
theorem users_withdrawBookkeeping {db : Db} {uid : Int} {amount : Rat} {now : Int} :
    (Handler.withdrawBookkeeping db uid amount now).users = db.users := rfl

/-- The settlement phase either leaves the users table untouched (transfer
failure) or sets the caller balance to balance minus amount. -/
theorem users_withdrawSettle {db : Db} {user : User} {amount : Rat}
    {transfer addrOf : Except Unit String} {now : Int} :
    (Handler.withdrawSettle db user amount transfer addrOf now).db.users = db.users
    ∨ (Handler.withdrawSettle db user amount transfer addrOf now).db.users
        = Database.setUserBalance db.users user.id (user.balance - amount) := by
  unfold Handler.withdrawSettle
  cases transfer with
  | error e => left; rfl
  | ok tx =>
    cases h : Database.UpdateWithdrawalTxHash
        (Handler.withdrawBookkeeping db user.id amount now) user.id tx with
    | ok d =>
      have hd : d.users = db.users := by
        rw [users_updateWithdrawalTxHash h, users_withdrawBookkeeping]
      cases addrOf with
      | error e =>
        right
        simp only [h, Database.UpdateUserBalance, hd]
      | ok a =>
        right
        simp only [h, Database.AddOperation, Database.UpdateUserBalance, hd]
    | error e =>
      cases addrOf with
      | error e2 =>
        right
        simp only [h, Database.UpdateUserBalance, users_withdrawBookkeeping]
      | ok a =>
        right
        simp only [h, Database.AddOperation, Database.UpdateUserBalance,
          users_withdrawBookkeeping]

/-- A withdrawal call preserves nonnegative balances: the debit is guarded
by the balance check. -/
theorem nonneg_withdrawFunds {db : Db} {pubKey : String} {amount : Rat}
    {transfer addrOf : Except Unit String} {now : Int}
    (hb : ∀ u ∈ db.users, 0 ≤ u.balance) :
    ∀ v ∈ (Handler.WithdrawFunds db pubKey amount transfer addrOf now).db.users,
      0 ≤ v.balance := by
  unfold Handler.WithdrawFunds
  split
  · exact hb
  case _ user huser =>
  split
  · split
    · split
      · exact hb
      · split
        · exact hb
        · case _ h2 =>
          rcases @users_withdrawSettle db user amount transfer addrOf now with h | h
          · intro v hv
            rw [h] at hv
            exact hb v hv
          · intro v hv
            rw [h] at hv
            have hnn : 0 ≤ user.balance - amount := sub_nonneg.mpr (le_of_not_lt h2)
            exact nonneg_setUserBalance hb hnn v hv
    · exact hb
  · exact hb


/-- Each configured level percent is nonnegative when the three configured
values are. -/
theorem levelPercent_nonneg {rc : ReferralConfig} (h1 : 0 ≤ rc.level1Percent)
    (h2 : 0 ≤ rc.level2Percent) (h3 : 0 ≤ rc.level3Percent) (n : Nat) :
    0 ≤ Handler.levelPercent rc n := by
  match n with
  | 0 => simp [Handler.levelPercent]
  | 1 => simpa [Handler.levelPercent] using h1
  | 2 => simpa [Handler.levelPercent] using h2
  | 3 => simpa [Handler.levelPercent] using h3
  | n + 4 => simp [Handler.levelPercent]

/-- The distribution loop preserves nonnegative balances for a nonnegative
profit and percents. -/
theorem nonneg_distributeEarnings {rc : ReferralConfig} {uid : Int} {P : Rat}
    {now : Int} (hP : 0 ≤ P) (h1 : 0 ≤ rc.level1Percent)
    (h2 : 0 ≤ rc.level2Percent) (h3 : 0 ≤ rc.level3Percent) :
    ∀ (pairs : List (Nat × Int)) (db : Db), (∀ u ∈ db.users, 0 ≤ u.balance) →
      ∀ v ∈ (Handler.distributeEarnings rc uid P now db pairs).users, 0 ≤ v.balance := by
  intro pairs
  induction pairs with
  | nil => intro db h; exact h
  | cons p rest ih =>
    intro db h
    obtain ⟨level, rid⟩ := p
    refine ih _ ?_
    intro w hw
    have hamt : 0 ≤ P * (Handler.levelPercent rc level / 100) :=
      mul_nonneg hP (div_nonneg (levelPercent_nonneg h1 h2 h3 level) (by norm_num))
    exact nonneg_creditBalance h hamt w hw

/-- A referral distribution call preserves nonnegative balances for a
nonnegative profit and percents. -/
theorem nonneg_processReferralEarnings {db : Db} {rc : ReferralConfig} {uid : Int}
    {P : Rat} {now : Int}
    (hb : ∀ u ∈ db.users, 0 ≤ u.balance) (hP : 0 ≤ P)
    (h1 : 0 ≤ rc.level1Percent) (h2 : 0 ≤ rc.level2Percent)
    (h3 : 0 ≤ rc.level3Percent) :
    ∀ v ∈ (afterExcept db (Handler.ProcessReferralEarnings db rc uid P now)).users,
      0 ≤ v.balance := by
  unfold Handler.ProcessReferralEarnings
  split
  · exact hb
  · exact nonneg_distributeEarnings hP h1 h2 h3 _ db hb

/-- C4 (amended): from a well-formed state with nonnegative balances and
nonnegative recorded amounts, each of the five non-admin operations leaves
every balance nonnegative, whether it succeeds or fails (distribution under
nonnegative profit and percents); and a debit that would make a balance
negative is rejected with the insufficient-funds error instead of applied. -/
theorem c4_no_negative_balance_amended (db : Db) (hwf : WfState db) :
    (∀ (types : List (String × InvestmentTypeConfig)) (pubKey ty : String)
        (amount : Rat) (now : Int),
      ∀ u ∈ (afterExcept db (Handler.CreateInvestment db types pubKey ty amount now)).users,
        0 ≤ u.balance)
    ∧ (∀ (pubKey : String) (investmentID now : Int),
      ∀ u ∈ (afterExcept db (Handler.DeleteInvestment db pubKey investmentID now)).users,
        0 ≤ u.balance)
    ∧ (∀ (pubKey : String) (depositID : Int) (check : Except Unit Bool),
      ∀ u ∈ (afterExcept db (Handler.ConfirmDeposit db pubKey depositID check)).users,
        0 ≤ u.balance)
    ∧ (∀ (pubKey : String) (amount : Rat) (transfer addrOf : Except Unit String)
        (now : Int),
      ∀ u ∈ (Handler.WithdrawFunds db pubKey amount transfer addrOf now).db.users,
        0 ≤ u.balance)
    ∧ (∀ (rc : ReferralConfig) (userID : Int) (profitAmount : Rat) (now : Int),
        0 ≤ profitAmount → 0 ≤ rc.level1Percent → 0 ≤ rc.level2Percent →
        0 ≤ rc.level3Percent →
      ∀ u ∈ (afterExcept db
          (Handler.ProcessReferralEarnings db rc userID profitAmount now)).users,
        0 ≤ u.balance)
    ∧ (∀ (userID : Int) (ty : String) (amount : Rat) (cfg : InvestmentTypeConfig)
        (now : Int) (u : User),
        Database.GetUser db userID = some u → u.balance < amount →
        Database.CreateInvestment db userID ty amount cfg now
          = .error .insufficientFunds) := by
  obtain ⟨hnd, hb, hdep, hinv⟩ := hwf
  refine ⟨?_, ?_, ?_, ?_, ?_, ?_⟩
  · intro types pubKey ty amount now
    exact nonneg_handlerCreateInvestment hnd hb
  · intro pubKey investmentID now
    exact nonneg_handlerDeleteInvestment hb hinv
  · intro pubKey depositID check
    exact nonneg_confirmDeposit hb hdep
  · intro pubKey amount transfer addrOf now
    exact nonneg_withdrawFunds hb
  · intro rc userID profitAmount now hP h1 h2 h3
    exact nonneg_processReferralEarnings hb hP h1 h2 h3
  · intro userID ty amount cfg now u hfind hlt
    unfold Database.CreateInvestment
    rw [hfind]
    simp [hlt]


/-- C4 witness: a concrete withdrawal run from a well-formed store ends with
the nonnegative balance 50. -/
theorem c4_amended_witness :
    (Handler.WithdrawFunds c6Db ("pk") 50 (.ok ("t")) (.ok ("a")) 0).db.users
        = [⟨42, "pk", 50, none⟩]
    ∧ (0 : Rat) ≤ (⟨42, "pk", 50, none⟩ : User).balance := by
  have hwf : WfState c6Db := by
    refine ⟨?_, ?_, ?_, ?_⟩ <;> norm_num [c6Db]
  have heval : (Handler.WithdrawFunds c6Db ("pk") 50 (.ok ("t")) (.ok ("a")) 0).db.users
      = [⟨42, "pk", 50, none⟩] := by
    norm_num [Handler.WithdrawFunds, Handler.withdrawSettle, Handler.withdrawBookkeeping,
      Handler.mathDeposits, Handler.mathWithdrawal, Handler.availableBalance,
      Database.GetUserByPubKey, Database.GetDepositsOfUser,
      Database.GetWithdrawalRequestsByUser, Database.CreateWithdrawalRequest,
      Database.ConfirmWithdrawalRequest, Database.UpdateWithdrawalTxHash,
      Database.latestWithdrawalId, Database.UpdateUserBalance,
      Database.setUserBalance, Database.updateBalances, Database.AddOperation,
      c6Db, List.find?, List.filter, StatusPending, StatusCompleted]
  have h := (c4_no_negative_balance_amended c6Db hwf).2.2.2.1 ("pk") 50
    (.ok ("t")) (.ok ("a")) 0
  exact ⟨heval, h _ (by rw [heval]; simp)⟩

/-! ### C7 -/

/-- The balance of a user as read through GetUser (0 when absent). -/
def userBalance (db : Db) (uid : Int) : Rat :=
  match Database.GetUser db uid with
  | some u => u.balance
  | none => 0

/-- Sum of the principals of the open investments of a user. -/
def openSum (db : Db) (uid : Int) : Rat :=
  ((db.investments.filter (fun i => i.userId == uid)).map (fun i => i.amount)).sum

/-- Investment-table well-formedness: distinct primary keys and every key
below the autoincrement counter. -/
def InvWf (db : Db) : Prop :=
  (db.investments.map (fun i => i.id)).Nodup
  ∧ ∀ i ∈ db.investments, i.id < db.nextInvestmentId

/-- Row lookup commutes with a balance UPDATE. -/
theorem find?_updateBalances (users : List User) (t : Int) (g : Rat → Rat) (uid : Int) :
    (Database.updateBalances users t g).find? (fun u => u.id == uid)
      = (users.find? (fun u => u.id == uid)).map
          (fun u => if u.id = t then { u with balance := g u.balance } else u) := by
  induction users with
  | nil => rfl
  | cons x xs ih =>
    have hid : (if x.id = t then { x with balance := g x.balance } else x).id = x.id := by
      by_cases hxt : x.id = t <;> simp [hxt]
    simp only [Database.updateBalances, List.map_cons]
    by_cases hxu : x.id = uid
    · rw [List.find?_cons_of_pos _ (by simp only [hid]; simpa using hxu),
        List.find?_cons_of_pos _ (by simpa using hxu)]
      simp
    · rw [List.find?_cons_of_neg _ (by simp only [hid, beq_iff_eq]; exact hxu),
        List.find?_cons_of_neg _ (by simp only [beq_iff_eq]; exact hxu)]
      exact ih

/-- The balance read after a balance UPDATE. -/
theorem userBalance_updateBalances (db db1 : Db) (t : Int) (g : Rat → Rat) (uid : Int)
    (h : db1.users = Database.updateBalances db.users t g) (u : User)
    (hu : Database.GetUser db uid = some u) :
    userBalance db1 uid = if u.id = t then g u.balance else u.balance := by
  unfold userBalance Database.GetUser
  rw [h, find?_updateBalances, ]
  unfold Database.GetUser at hu
  rw [hu]
  by_cases hut : u.id = t <;> simp [hut]

/-- A balance UPDATE does not delete user rows. -/
theorem getUser_updateBalances_isSome (db db1 : Db) (t : Int) (g : Rat → Rat) (uid : Int)
    (h : db1.users = Database.updateBalances db.users t g)
    (hs : (Database.GetUser db uid).isSome) :
    (Database.GetUser db1 uid).isSome := by
  unfold Database.GetUser at *
  rw [h, find?_updateBalances]
  simpa using hs


/-- Deleting the found investment row removes exactly its principal from the
open sum, given distinct investment ids. -/
theorem openSum_remove (l : List Investment) (iid uid : Int) (inv : Investment)
    (hnd : (l.map (fun i => i.id)).Nodup)
    (hfind : l.find? (fun i => i.id == iid && i.userId == uid) = some inv) :
    (((l.filter (fun i => !(i.id == iid && i.userId == uid))).filter
        (fun i => i.userId == uid)).map (fun i => i.amount)).sum
      = ((l.filter (fun i => i.userId == uid)).map (fun i => i.amount)).sum
        - inv.amount := by
  induction l with
  | nil => simp at hfind
  | cons x xs ih =>
    rw [List.map_cons, List.nodup_cons] at hnd
    by_cases hx : (x.id == iid && x.userId == uid) = true
    · have hxp : x.id = iid ∧ x.userId = uid := by simpa using hx
      have h2 : (x.userId == uid) = true := by simpa using hxp.2
      have hfind' : inv = x := by
        rw [List.find?_cons] at hfind
        simp only [hx] at hfind
        simpa using hfind.symm
      subst hfind'
      have hrest : ∀ i ∈ xs, (i.id == iid && i.userId == uid) = false := by
        intro i hi
        have hne : i.id ≠ iid := fun he => hnd.1 (by
          rw [hxp.1, ← he]
          exact List.mem_map_of_mem (fun j => j.id) hi)
        simp [hne]
      have hxs : xs.filter (fun i => !(i.id == iid && i.userId == uid)) = xs := by
        rw [List.filter_eq_self]
        intro i hi
        simp [hrest i hi]
      have hb : ¬ ((!(inv.id == iid && inv.userId == uid)) = true) := by
        rw [hx]
        simp
      rw [@List.filter_cons_of_neg Investment
          (fun i => !(i.id == iid && i.userId == uid)) inv xs hb, hxs,
        @List.filter_cons_of_pos Investment (fun i => i.userId == uid) inv xs h2,
        List.map_cons, List.sum_cons]
      ring
    · have hx' : (x.id == iid && x.userId == uid) = false := Bool.eq_false_iff.mpr hx
      rw [List.find?_cons] at hfind
      simp only [hx'] at hfind
      have hrec := ih hnd.2 hfind
      have hb : (!(x.id == iid && x.userId == uid)) = true := by
        rw [hx']
        rfl
      by_cases hxu : (x.userId == uid) = true
      · rw [@List.filter_cons_of_pos Investment
            (fun i => !(i.id == iid && i.userId == uid)) x xs hb,
          @List.filter_cons_of_pos Investment (fun i => i.userId == uid) x
            (xs.filter (fun i => !(i.id == iid && i.userId == uid))) hxu,
          @List.filter_cons_of_pos Investment (fun i => i.userId == uid) x xs hxu,
          List.map_cons, List.sum_cons, List.map_cons, List.sum_cons, hrec]
        ring
      · have hxu2 : ¬ ((fun i => i.userId == uid) x = true) := hxu
        rw [@List.filter_cons_of_pos Investment
            (fun i => !(i.id == iid && i.userId == uid)) x xs hb,
          @List.filter_cons_of_neg Investment (fun i => i.userId == uid) x
            (xs.filter (fun i => !(i.id == iid && i.userId == uid))) hxu2,
          @List.filter_cons_of_neg Investment (fun i => i.userId == uid) x xs hxu2,
          hrec]


/-- A successful store-level open: the balance drops by the principal, the
open sum grows by it, and well-formedness is preserved. -/
theorem createInvestment_step {db : Db} {uid : Int} {ty : String} {a : Rat}
    {cfg : InvestmentTypeConfig} {now : Int} {db1 : Db}
    (h : Database.CreateInvestment db uid ty a cfg now = .ok db1)
    (hwf : InvWf db) (hs : (Database.GetUser db uid).isSome) :
    userBalance db1 uid = userBalance db uid - a
    ∧ openSum db1 uid = openSum db uid + a
    ∧ InvWf db1
    ∧ (Database.GetUser db1 uid).isSome := by
  unfold Database.CreateInvestment at h
  split at h
  · exact absurd h (by simp)
  case _ u hu =>
    split at h
    · exact absurd h (by simp)
    case _ hlt =>
      have huid : u.id = uid := by simpa using List.find?_some hu
      cases h
      refine ⟨?_, ?_, ⟨?_, ?_⟩, ?_⟩
      · rw [userBalance_updateBalances db _ uid (fun b => b - a) uid rfl u hu,
          if_pos huid]
        simp [userBalance, hu]
      · simp [openSum, List.filter_append, List.map_append, List.sum_append]
      · simp only [List.map_append]
        rw [List.nodup_append]
        refine ⟨hwf.1, by simp, ?_⟩
        intro y hy
        simp only [List.map_cons, List.map_nil, List.mem_cons, List.not_mem_nil,
          or_false]
        intro he
        obtain ⟨i, hi, hiy⟩ := List.mem_map.mp hy
        have := hwf.2 i hi
        omega
      · intro i hi
        show i.id < db.nextInvestmentId + 1
        rcases List.mem_append.mp hi with hi1 | hi2
        · have := hwf.2 i hi1
          omega
        · simp only [List.mem_singleton] at hi2
          rw [hi2]
          show db.nextInvestmentId < db.nextInvestmentId + 1
          omega
      · exact getUser_updateBalances_isSome db _ uid (fun b => b - a) uid rfl hs


/-- A successful store-level close: the balance grows by the recorded
principal of the closed investment, the open sum drops by it, and
well-formedness is preserved. -/
theorem deleteInvestment_step {db : Db} {uid iid : Int} {now : Int} {db1 : Db}
    {inv : Investment}
    (hfind : db.investments.find? (fun i => i.id == iid && i.userId == uid) = some inv)
    (h : Database.DeleteInvestment db uid iid now = .ok db1)
    (hwf : InvWf db) (hs : (Database.GetUser db uid).isSome) :
    userBalance db1 uid = userBalance db uid + inv.amount
    ∧ openSum db1 uid = openSum db uid - inv.amount
    ∧ InvWf db1
    ∧ (Database.GetUser db1 uid).isSome := by
  unfold Database.DeleteInvestment at h
  rw [hfind] at h
  cases h
  obtain ⟨u, hu⟩ := Option.isSome_iff_exists.mp hs
  have huid : u.id = uid := by simpa using List.find?_some hu
  refine ⟨?_, ?_, ⟨?_, ?_⟩, ?_⟩
  · rw [userBalance_updateBalances db _ uid (fun b => b + inv.amount) uid rfl u hu,
      if_pos huid]
    simp [userBalance, hu]
  · exact openSum_remove db.investments iid uid inv hwf.1 hfind
  · refine List.Nodup.sublist ?_ hwf.1
    exact List.Sublist.map _ (List.filter_sublist _)
  · intro i hi
    show i.id < db.nextInvestmentId
    exact hwf.2 i (List.mem_of_mem_filter hi)
  · exact getUser_updateBalances_isSome db _ uid (fun b => b + inv.amount) uid rfl hs


/-- One call of an open/close investment sequence. -/
inductive InvEvent where
  | openInv (investType : String) (config : InvestmentTypeConfig) (amount : Rat) (now : Int)
  | closeInv (investmentID : Int) (now : Int)
  deriving Repr

/-- Driver running a sequence of open/close calls through the store,
accumulating the opened and closed principal totals; any failing call aborts
the run. -/
def runInvEvents (uid : Int) : Db → List InvEvent → Rat → Rat → Except Err (Db × Rat × Rat)
  | db, [], opened, closed => .ok (db, opened, closed)
  | db, .openInv ty cfg a now :: evs, opened, closed =>
    match Database.CreateInvestment db uid ty a cfg now with
    | .error e => .error e
    | .ok db1 => runInvEvents uid db1 evs (opened + a) closed
  | db, .closeInv iid now :: evs, opened, closed =>
    match db.investments.find? (fun i => i.id == iid && i.userId == uid) with
    | none => .error .notFound
    | some inv =>
      match Database.DeleteInvestment db uid iid now with
      | .error e => .error e
      | .ok db1 => runInvEvents uid db1 evs opened (closed + inv.amount)

/-- Sum of the amounts requested by the open events of a sequence. -/
def openedTotal : List InvEvent → Rat
  | [] => 0
  | .openInv _ _ a _ :: evs => a + openedTotal evs
  | .closeInv _ _ :: evs => openedTotal evs

/-- Invariant of a successful run: the balance moves by closed minus opened,
balance plus open principals is conserved, and the opened total is the sum
of the open events. -/
theorem runInvEvents_spec (uid : Int) :
    ∀ (evs : List InvEvent) (db : Db) (o c : Rat) (db' : Db) (o' c' : Rat),
      runInvEvents uid db evs o c = .ok (db', o', c') →
      InvWf db → (Database.GetUser db uid).isSome →
      userBalance db' uid - userBalance db uid = (c' - c) - (o' - o)
      ∧ userBalance db' uid + openSum db' uid
          = userBalance db uid + openSum db uid
      ∧ o' = o + openedTotal evs
      ∧ InvWf db' ∧ (Database.GetUser db' uid).isSome := by
  intro evs
  induction evs with
  | nil =>
    intro db o c db' o' c' h hwf hs
    simp only [runInvEvents, Except.ok.injEq, Prod.mk.injEq] at h
    obtain ⟨h1, h2, h3⟩ := h
    subst h1
    subst h2
    subst h3
    refine ⟨by ring, rfl, by simp [openedTotal], hwf, hs⟩
  | cons ev evs ih =>
    intro db o c db' o' c' h hwf hs
    cases ev with
    | openInv ty cfg a now =>
      rw [runInvEvents] at h
      cases hcr : Database.CreateInvestment db uid ty a cfg now with
      | error e => rw [hcr] at h; exact absurd h (by simp)
      | ok db1 =>
        rw [hcr] at h
        have step := createInvestment_step hcr hwf hs
        have rec := ih db1 (o + a) c db' o' c' h step.2.2.1 step.2.2.2
        refine ⟨?_, ?_, ?_, rec.2.2.2.1, rec.2.2.2.2⟩
        · have := rec.1
          have hb1 := step.1
          linarith
        · have := rec.2.1
          have hb1 := step.1
          have hS1 := step.2.1
          linarith
        · have := rec.2.2.1
          simp only [openedTotal]
          linarith
    | closeInv iid now =>
      rw [runInvEvents] at h
      cases hf : db.investments.find? (fun i => i.id == iid && i.userId == uid) with
      | none => rw [hf] at h; exact absurd h (by simp)
      | some inv =>
        rw [hf] at h
        cases hd : Database.DeleteInvestment db uid iid now with
        | error e => rw [hd] at h; exact absurd h (by simp)
        | ok db1 =>
          rw [hd] at h
          have step := deleteInvestment_step hf hd hwf hs
          have rec := ih db1 o (c + inv.amount) db' o' c' h step.2.2.1 step.2.2.2
          refine ⟨?_, ?_, ?_, rec.2.2.2.1, rec.2.2.2.2⟩
          · have := rec.1
            have hb1 := step.1
            linarith
          · have := rec.2.1
            have hb1 := step.1
            have hS1 := step.2.1
            linarith
          · have := rec.2.2.1
            simp only [openedTotal]
            linarith

/-- C7: for every successful sequence of open/close calls of one user, the
final balance is the initial balance minus the opened principals plus the
closed principals; when the user starts with no open investments, the still
open principals sum to initial minus final balance; and a close credits back
exactly the recorded principal of the closed investment. -/
theorem c7_open_close_conservation (db : Db) (uid : Int) (evs : List InvEvent)
    (db' : Db) (opened closed : Rat)
    (hrun : runInvEvents uid db evs 0 0 = .ok (db', opened, closed))
    (hwf : InvWf db) (hs : (Database.GetUser db uid).isSome) :
    userBalance db' uid = userBalance db uid - opened + closed
    ∧ opened = openedTotal evs
    ∧ userBalance db' uid + openSum db' uid
        = userBalance db uid + openSum db uid
    ∧ (openSum db uid = 0 →
        openSum db' uid = userBalance db uid - userBalance db' uid)
    ∧ (∀ (iid now : Int) (dbc : Db) (inv : Investment),
        db.investments.find? (fun i => i.id == iid && i.userId == uid) = some inv →
        Database.DeleteInvestment db uid iid now = .ok dbc →
        userBalance dbc uid = userBalance db uid + inv.amount) := by
  have h := runInvEvents_spec uid evs db 0 0 db' opened closed hrun hwf hs
  refine ⟨by linarith [h.1], by simpa using h.2.2.1, h.2.1, ?_, ?_⟩
  · intro h0
    have := h.2.1
    linarith
  · intro iid now dbc inv hf hd
    exact (deleteInvestment_step hf hd hwf hs).1


/-- One user with balance 10 and no investments. -/
def c7Db : Db :=
  { users := [⟨1, "u", 10, none⟩],
    investments := [], referralEarnings := [],
    depositRequests := [], withdrawalRequests := [], withdrawals := [],
    operations := [],
    nextInvestmentId := 1, nextEarningId := 1, nextDepositId := 1,
    nextWithdrawalReqId := 1, nextOperationId := 1 }

/-- Open 4, close it, open 3. -/
def c7Evs : List InvEvent :=
  [.openInv ("t") lowConfig 4 0, .closeInv 1 0, .openInv ("t") lowConfig 3 0]

/-- The state after running `c7Evs` on `c7Db`: balance 7 and one open
investment of 3. -/
def c7DbAfter : Db :=
  { users := [⟨1, "u", 7, none⟩],
    investments := [⟨2, 1, "t", 3, 0⟩], referralEarnings := [],
    depositRequests := [], withdrawalRequests := [], withdrawals := [],
    operations :=
      [⟨1, 1, OperationTypeInvestmentCreated, 4, "Created t investment", 0,
        some (.invCreated ("t") 1.5 30)⟩,
       ⟨2, 1, OperationTypeInvestmentClosed, 4, "Closed t investment", 0,
        some (.invClosed ("t") 1 0 0)⟩,
       ⟨3, 1, OperationTypeInvestmentCreated, 3, "Created t investment", 0,
        some (.invCreated ("t") 1.5 30)⟩],
    nextInvestmentId := 3, nextEarningId := 1, nextDepositId := 1,
    nextWithdrawalReqId := 1, nextOperationId := 4 }

/-- C7 witness: on the concrete run (open 4, close it, open 3) the final
balance is 10 - 7 + 4 = 7 and the open principal 3 equals initial minus
final balance. -/
theorem c7_conservation_witness :
    userBalance c7DbAfter 1 = userBalance c7Db 1 - 7 + 4
    ∧ userBalance c7DbAfter 1 + openSum c7DbAfter 1
        = userBalance c7Db 1 + openSum c7Db 1
    ∧ openSum c7DbAfter 1 = userBalance c7Db 1 - userBalance c7DbAfter 1 := by
  have hrun : runInvEvents 1 c7Db c7Evs 0 0 = .ok (c7DbAfter, 7, 4) := by
    norm_num [runInvEvents, Database.CreateInvestment, Database.DeleteInvestment,
      Database.GetUser, Database.debitBalance, Database.creditBalance,
      Database.updateBalances, List.find?, c7Db, c7Evs, c7DbAfter, lowConfig,
      OperationTypeInvestmentCreated, OperationTypeInvestmentClosed, Int.tdiv]
    refine ⟨rfl, rfl, rfl⟩
  have h := c7_open_close_conservation c7Db 1 c7Evs c7DbAfter 7 4 hrun
    ⟨by simp [c7Db], by simp [c7Db]⟩
    (by simp [Database.GetUser, c7Db, List.find?])
  exact ⟨h.1, h.2.2.1, h.2.2.2.1 (by norm_num [openSum, c7Db])⟩

/-! ### C8 -/

/-- C8: listing operations returns total = the number of the user rows, the
page equal to positions (page-1)*pageSize+1 through page*pageSize of a
descending-by-creation-time ordering of the user rows (a permutation of
them), and the returned page is itself sorted descending by creation time. -/
theorem c8_pagination (db : Db) (userID : Int) (page pageSize : Nat)
    (hp : 1 ≤ page) :
    (Database.GetUserOperations db userID page pageSize).total
        = (db.operations.filter (fun op => op.userId == userID)).length
    ∧ (Database.GetUserOperations db userID page pageSize).operations
        = (((db.operations.filter (fun op => op.userId == userID)).mergeSort
            (fun a b => decide (b.createdAt ≤ a.createdAt))).drop
            ((page - 1) * pageSize)).take pageSize
    ∧ ((db.operations.filter (fun op => op.userId == userID)).mergeSort
          (fun a b => decide (b.createdAt ≤ a.createdAt))).Perm
        (db.operations.filter (fun op => op.userId == userID))
    ∧ List.Pairwise (fun a b => b.createdAt ≤ a.createdAt)
        (Database.GetUserOperations db userID page pageSize).operations
    ∧ (∀ i : Nat, i < pageSize →
        (Database.GetUserOperations db userID page pageSize).operations[i]?
          = ((db.operations.filter (fun op => op.userId == userID)).mergeSort
              (fun a b => decide (b.createdAt ≤ a.createdAt)))[(page - 1) * pageSize + i]?) := by
  have hsort : ((db.operations.filter (fun op => op.userId == userID)).mergeSort
      (fun a b => decide (b.createdAt ≤ a.createdAt))).Pairwise
      (fun a b => decide (b.createdAt ≤ a.createdAt)) :=
    List.sorted_mergeSort
      (fun a b c h1 h2 => by
        simp only [decide_eq_true_eq] at *
        exact le_trans h2 h1)
      (fun a b => by
        simpa [Bool.or_eq_true, decide_eq_true_eq] using
          le_total b.createdAt a.createdAt)
      (db.operations.filter (fun op => op.userId == userID))
  refine ⟨rfl, rfl, List.mergeSort_perm _ _, ?_, ?_⟩
  · have hsub : List.Sublist
        ((Database.GetUserOperations db userID page pageSize).operations)
        ((db.operations.filter (fun op => op.userId == userID)).mergeSort
            (fun a b => decide (b.createdAt ≤ a.createdAt))) :=
      (List.take_sublist _ _).trans (List.drop_sublist _ _)
    exact (List.Pairwise.sublist hsub hsort).imp (fun h => by simpa using h)
  · intro i hi
    show ((((db.operations.filter (fun op => op.userId == userID)).mergeSort
        (fun a b => decide (b.createdAt ≤ a.createdAt))).drop
        ((page - 1) * pageSize)).take pageSize)[i]? = _
    rw [List.getElem?_take_of_lt hi, List.getElem?_drop]


/-- A store with 25 operations of user 1, created at times 25 down to 1. -/
def c8Db : Db :=
  { users := [⟨1, "pk", 0, none⟩],
    investments := [], referralEarnings := [],
    depositRequests := [], withdrawalRequests := [], withdrawals := [],
    operations :=
      [⟨1, 1, "deposit", 1, "d", 25, none⟩,
       ⟨2, 1, "deposit", 1, "d", 24, none⟩,
       ⟨3, 1, "deposit", 1, "d", 23, none⟩,
       ⟨4, 1, "deposit", 1, "d", 22, none⟩,
       ⟨5, 1, "deposit", 1, "d", 21, none⟩,
       ⟨6, 1, "deposit", 1, "d", 20, none⟩,
       ⟨7, 1, "deposit", 1, "d", 19, none⟩,
       ⟨8, 1, "deposit", 1, "d", 18, none⟩,
       ⟨9, 1, "deposit", 1, "d", 17, none⟩,
       ⟨10, 1, "deposit", 1, "d", 16, none⟩,
       ⟨11, 1, "deposit", 1, "d", 15, none⟩,
       ⟨12, 1, "deposit", 1, "d", 14, none⟩,
       ⟨13, 1, "deposit", 1, "d", 13, none⟩,
       ⟨14, 1, "deposit", 1, "d", 12, none⟩,
       ⟨15, 1, "deposit", 1, "d", 11, none⟩,
       ⟨16, 1, "deposit", 1, "d", 10, none⟩,
       ⟨17, 1, "deposit", 1, "d", 9, none⟩,
       ⟨18, 1, "deposit", 1, "d", 8, none⟩,
       ⟨19, 1, "deposit", 1, "d", 7, none⟩,
       ⟨20, 1, "deposit", 1, "d", 6, none⟩,
       ⟨21, 1, "deposit", 1, "d", 5, none⟩,
       ⟨22, 1, "deposit", 1, "d", 4, none⟩,
       ⟨23, 1, "deposit", 1, "d", 3, none⟩,
       ⟨24, 1, "deposit", 1, "d", 2, none⟩,
       ⟨25, 1, "deposit", 1, "d", 1, none⟩],
    nextInvestmentId := 1, nextEarningId := 1, nextDepositId := 1,
    nextWithdrawalReqId := 1, nextOperationId := 26 }

/-- C8 witness: for a user with exactly 25 operations, page 2 with page size
10 returns the 11th through 20th operations of the descending order (creation
times 15 down to 6) and total 25. -/
theorem c8_pagination_witness :
    (Database.GetUserOperations c8Db 1 2 10).total = 25
    ∧ (Database.GetUserOperations c8Db 1 2 10).operations.length = 10
    ∧ ((Database.GetUserOperations c8Db 1 2 10).operations.map
        (fun op => op.createdAt)) = [15, 14, 13, 12, 11, 10, 9, 8, 7, 6] := by
  have h := c8_pagination c8Db 1 2 10 (by norm_num)
  have hsorted : ((c8Db.operations.filter (fun op => op.userId == 1)).mergeSort
      (fun a b => decide (b.createdAt ≤ a.createdAt)))
      = c8Db.operations.filter (fun op => op.userId == 1) :=
    List.mergeSort_of_sorted (by decide)
  refine ⟨?_, ?_, ?_⟩
  · rw [h.1]
    decide
  · rw [h.2.1, hsorted]
    decide
  · rw [h.2.1, hsorted]
    decide

end TonApp
